import Mathlib

/-!
Verification of the Scribe recording-session pipeline

This file embeds the WebSocket recording handlers of the Scribe repository
(handleRecordingEvents in ws/handlers/recording.ts together with the richer
copy of the same handler shipped in the repository, which additionally
persists the client-reported duration and attaches the parsed summary to the
processing-complete broadcast) and the socket authentication middleware
(ws/middleware/auth.ts), over a pure model of the Prisma store described by
the initial migration (RecordingSession, Transcript, Summary tables, with the
unique index on Summary.sessionId and the foreign keys to RecordingSession).

External AI calls (Gemini transcription and summarization) are modelled as
oracle parameters of type Except Unit String, and the JSON parser applied to
the matched brace-delimited part of the summarization response is an
uninterpreted parameter producing an optional structured result, exactly as
the pluggable-capability boundary of the design prescribes.
-/

namespace Scribe

/-- Lifecycle status enum of a RecordingSession, from the Prisma migration. -/
inductive RecordingStatus
  | RECORDING
  | PAUSED
  | PROCESSING
  | COMPLETED
  | FAILED
deriving DecidableEq, Repr

/-- Audio source enum of a RecordingSession, from the Prisma migration. -/
inductive AudioSourceType
  | MICROPHONE
  | TAB_SHARE
  | SCREEN_SHARE
deriving DecidableEq, Repr

/-- A row of the User table (fields used by the socket middleware). -/
structure User where
  id : String
  email : String
  name : Option String
deriving DecidableEq, Repr

/-- A row of the RecordingSession table (fields used by the handlers). -/
structure RecordingSession where
  id : String
  userId : String
  title : Option String
  status : RecordingStatus
  sourceType : AudioSourceType
  duration : Nat
deriving DecidableEq, Repr

/-- A row of the Transcript table.  The surrogate id records creation order:
rows created later receive strictly larger ids. -/
structure Transcript where
  id : Nat
  sessionId : String
  text : String
  timestamp : Int
  confidence : ℚ
deriving DecidableEq, Repr

/-- A row of the Summary table. -/
structure Summary where
  sessionId : String
  fullText : String
  keyPoints : List String
  actionItems : List String
  decisions : List String
  participants : List String
deriving DecidableEq, Repr

/-- The structured object obtained from JSON.parse on the matched part of the
summarization response; every field is optional, as the handler guards each
one with a JavaScript default. -/
structure SummaryJson where
  fullText : Option String
  keyPoints : Option (List String)
  actionItems : Option (List String)
  decisions : Option (List String)
  participants : Option (List String)
deriving DecidableEq, Repr

/-- The durable store: the tables touched by the handlers, with transcripts
kept in creation order and nextTranscriptId the next surrogate key. -/
structure DB where
  users : List User
  sessions : List RecordingSession
  transcripts : List Transcript
  summaries : List Summary
  nextTranscriptId : Nat
deriving DecidableEq, Repr

/-- prisma.recordingSession.findUnique on the id column. -/
def findSession (db : DB) (sid : String) : Option RecordingSession :=
  db.sessions.find? (fun s => s.id == sid)

/-- prisma.recordingSession.update: fails (P2025) when no row matches the id,
otherwise applies the field update and returns the new store together with
the updated record. -/
def sessionUpdate (db : DB) (sid : String) (f : RecordingSession → RecordingSession) :
    Except Unit (DB × RecordingSession) :=
  match findSession db sid with
  | none => .error ()
  | some s =>
      .ok ({ db with
              sessions := db.sessions.map (fun t => if t.id == sid then f t else t) },
            f s)

/-- The Transcript rows of one session, in creation order. -/
def transcriptsFor (db : DB) (sid : String) : List Transcript :=
  db.transcripts.filter (fun t => t.sessionId == sid)

/-- The Summary rows of one session, in creation order. -/
def summariesFor (db : DB) (sid : String) : List Summary :=
  db.summaries.filter (fun s => s.sessionId == sid)

/-- prisma.transcript.create: enforces the foreign key to RecordingSession
and assigns the next surrogate id. -/
def transcriptCreate (db : DB) (sid text : String) (timestamp : Int)
    (confidence : ℚ) : Except Unit DB :=
  if (findSession db sid).isSome then
    .ok { db with
          transcripts := db.transcripts ++
            [{ id := db.nextTranscriptId, sessionId := sid, text := text,
               timestamp := timestamp, confidence := confidence }],
          nextTranscriptId := db.nextTranscriptId + 1 }
  else .error ()

/-- prisma.summary.create: enforces the foreign key to RecordingSession and
the unique index on sessionId. -/
def summaryCreate (db : DB) (row : Summary) : Except Unit DB :=
  if (findSession db row.sessionId).isSome && (summariesFor db row.sessionId).isEmpty then
    .ok { db with summaries := db.summaries ++ [row] }
  else .error ()

/-- Comparison used by findMany with orderBy timestamp asc.  Ordering between
rows with equal timestamps is modelled as stable, i.e. rows keep their
creation order, matching the design reading of the store. -/
def tsLe (a b : Transcript) : Prop := a.timestamp ≤ b.timestamp

instance : DecidableRel tsLe :=
  fun a b => inferInstanceAs (Decidable (a.timestamp ≤ b.timestamp))

instance : IsTotal Transcript tsLe := ⟨fun a b => Int.le_total a.timestamp b.timestamp⟩

instance : IsTrans Transcript tsLe := ⟨fun _ _ _ h₁ h₂ => le_trans h₁ h₂⟩

/-- prisma.transcript.findMany where sessionId, orderBy timestamp asc. -/
def findManyTranscripts (db : DB) (sid : String) : List Transcript :=
  List.insertionSort tsLe (transcriptsFor db sid)

/-- The aggregation step of the stop handler applied to a raw table of
transcripts: filter to the session, order by timestamp, take the texts and
join them with a single space. -/
def aggregateList (l : List Transcript) (sid : String) : String :=
  String.intercalate " "
    ((List.insertionSort tsLe (l.filter (fun t => t.sessionId == sid))).map (·.text))

/-- The full transcript the stop handler feeds to summarization. -/
def aggregateTranscript (db : DB) (sid : String) : String :=
  aggregateList db.transcripts sid

/-- The regex match of /\x7b[\s\S]*\x7d/ used on the summarization response:
the substring from the first opening brace through the last closing brace,
when the latter comes after the former, and no match otherwise. -/
def jsonMatch (s : String) : Option String :=
  let cs := s.toList
  match cs.findIdx? (fun c => c = '{') with
  | none => none
  | some i =>
      match cs.reverse.findIdx? (fun c => c = '}') with
      | none => none
      | some k =>
          let j := cs.length - 1 - k
          if i < j then some (String.mk ((cs.drop i).take (j - i + 1))) else none

/-- JavaScript trim applied to the transcription response text: drop
whitespace from both ends of the string. -/
def jsTrim (s : String) : String :=
  String.mk (((s.toList.dropWhile Char.isWhitespace).reverse.dropWhile
    Char.isWhitespace).reverse)

/-- JavaScript duration or-zero default: the stop handler persists
duration or 0, and 0 is falsy, so a missing or zero payload value is stored
as 0. -/
def jsOrZero : Option Nat → Nat
  | none => 0
  | some d => if d = 0 then 0 else d

/-- JavaScript string or-default: an absent or empty string falls back to
the default, any other string is kept. -/
def jsOrStr (o : Option String) (d : String) : String :=
  match o with
  | none => d
  | some s => if s = "" then d else s

/-- The Summary row built from a successfully parsed summarization result,
with the JavaScript defaults of the handler applied to each field. -/
def mkSummaryRow (sid : String) (sj : SummaryJson) : Summary :=
  { sessionId := sid
    fullText := jsOrStr sj.fullText "No summary generated"
    keyPoints := sj.keyPoints.getD []
    actionItems := sj.actionItems.getD []
    decisions := sj.decisions.getD []
    participants := sj.participants.getD [] }

/-- The fallback Summary row created when summarization fails: full text
equal to the aggregated transcript and empty structured lists. -/
def fallbackRow (sid fullTranscript : String) : Summary :=
  { sessionId := sid
    fullText := fullTranscript
    keyPoints := []
    actionItems := []
    decisions := []
    participants := [] }

/-- Events emitted by the handlers to the socket or the session room. -/
inductive Emit
  | statusUpdated (sessionId : String) (status : RecordingStatus)
  | audioChunkReceived (timestamp : Int) (size : Nat)
  | transcriptionProgress (sessionId message text : String) (timestamp : Int)
  | processingComplete (sessionId message : String) (summary : Option SummaryJson)
  | errorMessage (message : String)
deriving DecidableEq, Repr

/-- Acknowledgment of the stop-recording handler. -/
inductive StopAck
  | ok
  | failed (error : String)
deriving DecidableEq, Repr

/-- Acknowledgment of the update-status handler. -/
inductive StatusAck
  | ok (session : RecordingSession)
  | failed (error : String)
deriving DecidableEq, Repr

/-- Acknowledgment of the get-session handler: a success carries the session
with its transcripts ordered by timestamp and its optional summary. -/
inductive SessionAck
  | ok (session : RecordingSession) (transcripts : List Transcript)
        (summary : Option Summary)
  | failed (error : String)
deriving DecidableEq, Repr

/-- Outcome of socket authentication: either the verified identity attached
to the socket data, or a rejection with its reason. -/
inductive AuthResult
  | ok (userId : String) (userEmail : String) (userName : Option String)
  | rejected (reason : String)
deriving DecidableEq, Repr

/-- Socket authentication middleware (authenticateSocket): reads the claimed
user id from the handshake, rejects a missing (falsy) id, rejects an id with
no matching User row, and otherwise attaches the found user id, email and
name to the socket data. -/
def authenticateSocket (users : List User) (claimedUserId : Option String) : AuthResult :=
  match claimedUserId with
  | none => .rejected "Authentication error: No userId provided"
  | some uid =>
      if uid = "" then .rejected "Authentication error: No userId provided"
      else
        match users.find? (fun u => u.id == uid) with
        | none => .rejected "Authentication error: User not found"
        | some u => .ok u.id u.email u.name

/-- Result of the audio-chunk handler: the new store and emitted events
(the handler has no acknowledgment; failures surface as an error event). -/
structure ChunkResult where
  db : DB
  emits : List Emit
deriving DecidableEq, Repr

/-- The audio-chunk handler: broadcast the chunk-received notice, ask the
transcription oracle, on failure substitute the placeholder text and zero
confidence, emit transcription progress, then persist exactly one transcript
row; a store failure is caught and reported as an error event. -/
def audioChunk (transcription : Except Unit String) (db : DB)
    (sessionId chunk : String) (timestamp : Int) : ChunkResult :=
  let received := Emit.audioChunkReceived timestamp chunk.length
  let outcome :=
    match transcription with
    | .ok t => (jsTrim t, mkRat 95 100)
    | .error _ =>
        ("[Transcription failed at " ++ toString timestamp ++ "s]", (0 : ℚ))
  let progress :=
    Emit.transcriptionProgress sessionId "Processing audio chunk..."
      outcome.1 timestamp
  match transcriptCreate db sessionId outcome.1 timestamp outcome.2 with
  | .ok db₁ => ⟨db₁, [received, progress]⟩
  | .error _ => ⟨db, [received, progress, .errorMessage "Failed to process audio chunk"]⟩

/-- Result of the update-status handler. -/
structure StatusResult where
  db : DB
  ack : StatusAck
  emits : List Emit
deriving DecidableEq, Repr

/-- The update-status handler: unconditionally writes the requested status to
the session row (no check of the current status), broadcasts the new status,
and acknowledges with the updated record; a missing session surfaces as a
failure acknowledgment. -/
def updateStatus (db : DB) (sessionId : String) (status : RecordingStatus) :
    StatusResult :=
  match sessionUpdate db sessionId (fun s => { s with status := status }) with
  | .error _ => ⟨db, .failed "Failed to update status", []⟩
  | .ok (db₁, s₁) => ⟨db₁, .ok s₁, [.statusUpdated sessionId status]⟩

/-- The summarization section of the stop handler, one inner try block:
invoke the summarization oracle, match the brace-delimited part of its
response, parse it, and persist the parsed Summary row; any failure along
the way falls to the catch, which persists the fallback row instead.  The
returned option is the summaryData variable, set as soon as parsing
succeeds, and a store failure inside the catch propagates outward. -/
def summarizeStep (parse : String → Option SummaryJson)
    (gemini : Except Unit String) (db : DB) (sessionId fullTranscript : String) :
    Except Unit (DB × Option SummaryJson) :=
  let attempt : Except Unit DB × Option SummaryJson :=
    match gemini with
    | .error _ => (.error (), none)
    | .ok text =>
        match jsonMatch text with
        | none => (.ok db, none)
        | some m =>
            match parse m with
            | none => (.error (), none)
            | some sj =>
                match summaryCreate db (mkSummaryRow sessionId sj) with
                | .ok db₁ => (.ok db₁, some sj)
                | .error _ => (.error (), some sj)
  match attempt with
  | (.ok db₁, sd) => .ok (db₁, sd)
  | (.error _, sd) =>
      match summaryCreate db (fallbackRow sessionId fullTranscript) with
      | .ok db₁ => .ok (db₁, sd)
      | .error _ => .error ()

/-- Result of the stop-recording handler. -/
structure StopResult where
  db : DB
  ack : StopAck
  emits : List Emit
deriving DecidableEq, Repr

/-- The stop-recording handler: set the session status to PROCESSING and
persist the client-reported duration (with the JavaScript or-zero default),
broadcast the new status, aggregate the transcripts of the session in
timestamp order, run the summarization section, set the status to COMPLETED
and broadcast processing-complete carrying the summaryData variable; any
uncaught store failure yields a failure acknowledgment, leaving the store as
last durably reached. -/
def stopRecording (parse : String → Option SummaryJson)
    (gemini : Except Unit String) (db : DB) (sessionId : String)
    (duration : Option Nat) : StopResult :=
  match sessionUpdate db sessionId
      (fun s => { s with status := .PROCESSING, duration := jsOrZero duration }) with
  | .error _ => ⟨db, .failed "Failed to stop recording", []⟩
  | .ok (db₁, _) =>
      let processingEmit := Emit.statusUpdated sessionId .PROCESSING
      let fullTranscript := aggregateTranscript db₁ sessionId
      match summarizeStep parse gemini db₁ sessionId fullTranscript with
      | .error _ => ⟨db₁, .failed "Failed to stop recording", [processingEmit]⟩
      | .ok (db₂, summaryData) =>
          match sessionUpdate db₂ sessionId (fun s => { s with status := .COMPLETED }) with
          | .error _ => ⟨db₂, .failed "Failed to stop recording", [processingEmit]⟩
          | .ok (db₃, _) =>
              ⟨db₃, .ok,
                [processingEmit,
                 .processingComplete sessionId "Recording processed successfully"
                   summaryData]⟩

/-- The summaryData variable the stop handler holds at broadcast time on a
run without store failures: the parsed object when the oracle succeeded and
its response contained a brace-delimited match that parsed, and null in all
other cases. -/
def parsedSummary (parse : String → Option SummaryJson)
    (gemini : Except Unit String) : Option SummaryJson :=
  match gemini with
  | .error _ => none
  | .ok text => (jsonMatch text).bind parse

/-- The Summary rows the summarization section persists on a run where the
store accepts the insert: the parsed row on full success, nothing when the
response has no brace-delimited match, and the fallback row when the oracle
or the parse fails. -/
def summaryRowsAdded (parse : String → Option SummaryJson)
    (gemini : Except Unit String) (sid ftx : String) : List Summary :=
  match gemini with
  | .error _ => [fallbackRow sid ftx]
  | .ok text =>
      match jsonMatch text with
      | none => []
      | some m =>
          match parse m with
          | none => [fallbackRow sid ftx]
          | some sj => [mkSummaryRow sid sj]

/-- Whether the summarization section attempts at least one Summary insert:
always, except when the oracle succeeds and its response contains no
brace-delimited match. -/
def createAttempted (gemini : Except Unit String) : Bool :=
  match gemini with
  | .error _ => true
  | .ok text => (jsonMatch text).isSome

/-- The get-session handler: findUnique on the id with transcripts ordered by
timestamp and the optional summary included; a missing row acknowledges with
a not-found failure.  The caller identity on the socket is not consulted. -/
def getSession (db : DB) (callerId sessionId : String) : SessionAck :=
  match findSession db sessionId with
  | none => .failed "Session not found"
  | some s => .ok s (findManyTranscripts db sessionId) (summariesFor db sessionId).head?

/-! Concrete fixtures used by counterexamples and witnesses. -/

/-- A sample user row. -/
def aliceU : User := { id := "u1", email := "alice@example.com", name := some "Alice" }

/-- A sample recording session owned by the sample user. -/
def sampleSession : RecordingSession :=
  { id := "s1", userId := "u1", title := some "Standup", status := .RECORDING,
    sourceType := .MICROPHONE, duration := 0 }

/-- A sample transcript fragment of the sample session. -/
def sampleFragment : Transcript :=
  { id := 0, sessionId := "s1", text := "hello team", timestamp := 0,
    confidence := mkRat 95 100 }

/-- A store holding the sample session in RECORDING status with one
fragment and no summary. -/
def recDB : DB :=
  { users := [aliceU], sessions := [sampleSession], transcripts := [sampleFragment],
    summaries := [], nextTranscriptId := 1 }

/-- A store holding the sample session already COMPLETED, with one fragment
and its summary row already present. -/
def doneDB : DB :=
  { users := [aliceU],
    sessions := [{ sampleSession with status := .COMPLETED, duration := 45 }],
    transcripts := [sampleFragment],
    summaries := [fallbackRow "s1" "hello team"],
    nextTranscriptId := 1 }

/-- A parse oracle that always fails, standing for JSON.parse throwing. -/
def parseNone : String → Option SummaryJson := fun _ => none

/-- Timestamp order refined by creation order: the explicit order in which
the specification states the aggregation result, timestamp offset ascending
with ties broken by the creation-order surrogate id. -/
def lexLe (a b : Transcript) : Prop :=
  a.timestamp < b.timestamp ∨ (a.timestamp = b.timestamp ∧ a.id ≤ b.id)

instance : DecidableRel lexLe := fun a b =>
  inferInstanceAs (Decidable (a.timestamp < b.timestamp
    ∨ (a.timestamp = b.timestamp ∧ a.id ≤ b.id)))

/-- The aggregation result as the specification words it: the fragment texts
sorted by timestamp offset ascending, ties broken by fragment creation
order, joined with a single space.  Compared against aggregateList, the
aggregation the stop handler computes. -/
def aggregateSpec (l : List Transcript) (sid : String) : String :=
  String.intercalate " "
    ((List.insertionSort lexLe (l.filter (fun t => t.sessionId == sid))).map (·.text))

/-- Content view of a transcript row: session, text and timestamp, without
the creation-order id, for stating arrival-order independence. -/
def tkey (t : Transcript) : String × String × Int :=
  (t.sessionId, t.text, t.timestamp)

/-- Timestamp comparison on content triples. -/
def ctsLe (a b : String × String × Int) : Prop := a.2.2 ≤ b.2.2

instance : DecidableRel ctsLe := fun a b =>
  inferInstanceAs (Decidable (a.2.2 ≤ b.2.2))

instance : IsTotal (String × String × Int) ctsLe :=
  ⟨fun a b => Int.le_total a.2.2 b.2.2⟩

instance : IsTrans (String × String × Int) ctsLe :=
  ⟨fun _ _ _ h₁ h₂ => le_trans h₁ h₂⟩

/-- Two fragments of one session with distinct timestamps, in creation
order, for the aggregation witnesses. -/
def c4list : List Transcript :=
  [{ id := 0, sessionId := "s1", text := "second", timestamp := 20,
     confidence := mkRat 95 100 },
   { id := 1, sessionId := "s1", text := "first", timestamp := 0,
     confidence := 0 }]

/-- The same fragment contents of c4list arriving in the opposite order. -/
def c4perm : List Transcript :=
  [{ id := 0, sessionId := "s1", text := "first", timestamp := 0,
     confidence := 0 },
   { id := 1, sessionId := "s1", text := "second", timestamp := 20,
     confidence := mkRat 95 100 }]

/-! Helper lemmas about the store operations. -/

/-- Finding by id commutes with an id-preserving update map. -/
theorem find?_update_id (l : List RecordingSession) (sid : String)
    (f : RecordingSession → RecordingSession) (hf : ∀ s, (f s).id = s.id) :
    (l.map (fun t => if t.id == sid then f t else t)).find? (fun s => s.id == sid)
      = (l.find? (fun s => s.id == sid)).map (fun t => if t.id == sid then f t else t) := by
  have hpg : ((fun s => s.id == sid) ∘ fun t => if t.id == sid then f t else t)
      = (fun s : RecordingSession => s.id == sid) :=
    funext fun x => by by_cases hx : x.id = sid <;> simp [hx, hf]
  rw [List.find?_map, hpg]

/-- A successful session update finds the updated record afterwards and
leaves every other table untouched. -/
theorem findSession_sessionUpdate {db : DB} {sid : String}
    {f : RecordingSession → RecordingSession}
    {db' : DB} {s' : RecordingSession}
    (h : sessionUpdate db sid f = .ok (db', s'))
    (hf : ∀ s, (f s).id = s.id) :
    findSession db' sid = some s' ∧ db'.transcripts = db.transcripts
      ∧ db'.summaries = db.summaries ∧ db'.nextTranscriptId = db.nextTranscriptId
      ∧ ∃ s, findSession db sid = some s ∧ s' = f s := by
  unfold sessionUpdate at h
  cases hfind : findSession db sid with
  | none => rw [hfind] at h; exact absurd h (by simp)
  | some s =>
      rw [hfind] at h
      injection h with h'
      injection h' with h₁ h₂
      subst h₁; subst h₂
      refine ⟨?_, rfl, rfl, rfl, s, rfl, rfl⟩
      have hfind' : db.sessions.find? (fun t => t.id == sid) = some s := hfind
      have hid := List.find?_some hfind'
      show (db.sessions.map (fun t => if t.id == sid then f t else t)).find?
          (fun s => s.id == sid) = _
      rw [find?_update_id db.sessions sid f hf, hfind']
      simp only [Option.map]
      rw [if_pos hid]

/-- A session update fails exactly on a missing session. -/
theorem sessionUpdate_error {db : DB} {sid : String}
    {f : RecordingSession → RecordingSession}
    (h : findSession db sid = none) : sessionUpdate db sid f = .error () := by
  unfold sessionUpdate; rw [h]

/-- findSession reads only the sessions table. -/
theorem findSession_congr {db db' : DB} (h : db.sessions = db'.sessions)
    (sid : String) : findSession db sid = findSession db' sid := by
  unfold findSession; rw [h]

/-- summariesFor reads only the summaries table. -/
theorem summariesFor_congr {db db' : DB} (h : db.summaries = db'.summaries)
    (sid : String) : summariesFor db sid = summariesFor db' sid := by
  unfold summariesFor; rw [h]

/-- A summary insert fails when a summary row for the session already
exists. -/
theorem summaryCreate_error_of_existing {db : DB} {row : Summary}
    (h : summariesFor db row.sessionId ≠ []) :
    summaryCreate db row = .error () := by
  unfold summaryCreate
  have : (summariesFor db row.sessionId).isEmpty = false := by
    cases hl : summariesFor db row.sessionId with
    | nil => exact absurd hl h
    | cons a l => rfl
  rw [this]
  simp

/-- A summary insert succeeds when the session exists and has no summary
row yet, and only appends the new row. -/
theorem summaryCreate_ok_of_empty {db : DB} {row : Summary}
    (hs : (findSession db row.sessionId).isSome = true)
    (he : summariesFor db row.sessionId = []) :
    summaryCreate db row = .ok { db with summaries := db.summaries ++ [row] } := by
  unfold summaryCreate
  rw [hs, he]
  rfl

/-- A successful summary insert only appends the row to the summaries
table. -/
theorem summaryCreate_ok_shape {db : DB} {row : Summary} {db' : DB}
    (h : summaryCreate db row = .ok db') :
    db'.sessions = db.sessions ∧ db'.transcripts = db.transcripts
      ∧ db'.nextTranscriptId = db.nextTranscriptId
      ∧ db'.summaries = db.summaries ++ [row] := by
  unfold summaryCreate at h
  split at h
  · injection h with h'
    subst h'
    exact ⟨rfl, rfl, rfl, rfl⟩
  · exact absurd h (by simp)

/-- When the session already has a summary row and the run attempts an
insert, the summarization section fails outward: both the primary insert and
the fallback insert violate the unique index. -/
theorem summarizeStep_existing_attempted {parse : String → Option SummaryJson}
    {gemini : Except Unit String} {db : DB} {sid ftx : String}
    (hne : summariesFor db sid ≠ []) (hca : createAttempted gemini = true) :
    summarizeStep parse gemini db sid ftx = .error () := by
  have hfb : summaryCreate db (fallbackRow sid ftx) = .error () :=
    summaryCreate_error_of_existing (by simpa [fallbackRow] using hne)
  cases gemini with
  | error u => simp [summarizeStep, hfb]
  | ok text =>
      cases hm : jsonMatch text with
      | none => simp [createAttempted, hm] at hca
      | some m =>
          cases hp : parse m with
          | none => simp [summarizeStep, hm, hp, hfb]
          | some sj =>
              have h₁ : summaryCreate db (mkSummaryRow sid sj) = .error () :=
                summaryCreate_error_of_existing (by simpa [mkSummaryRow] using hne)
              simp [summarizeStep, hm, hp, h₁, hfb]

/-- When the oracle succeeds with a response holding no brace-delimited
match, the summarization section inserts nothing and succeeds with a null
summaryData. -/
theorem summarizeStep_no_attempt {parse : String → Option SummaryJson}
    {gemini : Except Unit String} {db : DB} {sid ftx : String}
    (hca : createAttempted gemini = false) :
    summarizeStep parse gemini db sid ftx = .ok (db, none) := by
  cases gemini with
  | error u => simp [createAttempted] at hca
  | ok text =>
      cases hm : jsonMatch text with
      | none => simp [summarizeStep, hm]
      | some m => rw [createAttempted, hm] at hca; simp at hca

/-- On a session that exists and has no summary row yet, the summarization
section succeeds, appends exactly the rows of summaryRowsAdded, and returns
the parsed summary object (null on every non-success path). -/
theorem summarizeStep_ok_of_empty {parse : String → Option SummaryJson}
    {gemini : Except Unit String} {db : DB} {sid ftx : String}
    (hs : (findSession db sid).isSome = true)
    (he : summariesFor db sid = []) :
    summarizeStep parse gemini db sid ftx
      = .ok ({ db with summaries := db.summaries ++ summaryRowsAdded parse gemini sid ftx },
             parsedSummary parse gemini) := by
  cases gemini with
  | error u =>
      have hfb := @summaryCreate_ok_of_empty db (fallbackRow sid ftx) hs he
      simp [summarizeStep, hfb, summaryRowsAdded, parsedSummary]
  | ok text =>
      cases hm : jsonMatch text with
      | none =>
          simp [summarizeStep, hm, summaryRowsAdded, parsedSummary]
      | some m =>
          cases hp : parse m with
          | none =>
              have hfb := @summaryCreate_ok_of_empty db (fallbackRow sid ftx) hs he
              simp [summarizeStep, hm, hp, hfb, summaryRowsAdded, parsedSummary]
          | some sj =>
              have hmk := @summaryCreate_ok_of_empty db (mkSummaryRow sid sj) hs he
              simp [summarizeStep, hm, hp, hmk, summaryRowsAdded, parsedSummary]

/-- A successful run of the summarization section leaves the sessions and
transcripts tables untouched. -/
theorem summarizeStep_sessions {parse : String → Option SummaryJson}
    {gemini : Except Unit String} {db : DB} {sid ftx : String} {db' : DB}
    {sd : Option SummaryJson}
    (h : summarizeStep parse gemini db sid ftx = .ok (db', sd)) :
    db'.sessions = db.sessions ∧ db'.transcripts = db.transcripts := by
  cases gemini with
  | error u =>
      simp only [summarizeStep] at h
      cases hfb : summaryCreate db (fallbackRow sid ftx) with
      | ok dbf =>
          rw [hfb] at h
          injection h with h'
          injection h' with h₁ h₂
          subst h₁
          have := summaryCreate_ok_shape hfb
          exact ⟨this.1, this.2.1⟩
      | error e => rw [hfb] at h; exact absurd h (by simp)
  | ok text =>
      simp only [summarizeStep] at h
      cases hm : jsonMatch text with
      | none =>
          rw [hm] at h
          injection h with h'
          injection h' with h₁ h₂
          subst h₁
          exact ⟨rfl, rfl⟩
      | some m =>
          rw [hm] at h
          dsimp only at h
          cases hp : parse m with
          | none =>
              rw [hp] at h
              cases hfb : summaryCreate db (fallbackRow sid ftx) with
              | ok dbf =>
                  rw [hfb] at h
                  injection h with h'
                  injection h' with h₁ h₂
                  subst h₁
                  have := summaryCreate_ok_shape hfb
                  exact ⟨this.1, this.2.1⟩
              | error e => rw [hfb] at h; exact absurd h (by simp)
          | some sj =>
              rw [hp] at h
              dsimp only at h
              cases hmk : summaryCreate db (mkSummaryRow sid sj) with
              | ok dbm =>
                  rw [hmk] at h
                  injection h with h'
                  injection h' with h₁ h₂
                  subst h₁
                  have := summaryCreate_ok_shape hmk
                  exact ⟨this.1, this.2.1⟩
              | error e =>
                  rw [hmk] at h
                  cases hfb : summaryCreate db (fallbackRow sid ftx) with
                  | ok dbf =>
                      rw [hfb] at h
                      injection h with h'
                      injection h' with h₁ h₂
                      subst h₁
                      have := summaryCreate_ok_shape hfb
                      exact ⟨this.1, this.2.1⟩
                  | error e₂ => rw [hfb] at h; exact absurd h (by simp)

/-- C1: the claim fails on the code (code bug).  On a stop run over the
sample RECORDING session where the summarization oracle succeeds but its
response contains no brace-delimited JSON match, the handler skips Summary
creation entirely, still marks the session COMPLETED, and acknowledges
success: this completed session ends with zero Summary rows, while the claim
requires exactly one, never zero.  The library version of the same pipeline
throws on a missing match so that the fallback path runs, which shows the
intended behavior. -/
theorem stop_completed_with_zero_summaries :
    summariesFor (stopRecording parseNone
        (.ok "The recording was silent, nothing to summarize.")
        recDB "s1" (some 45)).db "s1" = []
    ∧ (findSession (stopRecording parseNone
        (.ok "The recording was silent, nothing to summarize.")
        recDB "s1" (some 45)).db "s1").map (·.status) = some .COMPLETED
    ∧ (stopRecording parseNone
        (.ok "The recording was silent, nothing to summarize.")
        recDB "s1" (some 45)).ack = .ok := by
  refine ⟨by decide, by decide, by decide⟩

/-- C2 counterexample: a stop-request on the already COMPLETED sample
session is neither rejected without effect nor a no-op: the handler writes
PROCESSING unconditionally before any guard could fire, so the session
status changes from COMPLETED to PROCESSING even though the duplicate
summary insert then fails. -/
theorem stop_on_completed_changes_status_cex :
    (findSession doneDB "s1").map (·.status) = some .COMPLETED
    ∧ (findSession (stopRecording parseNone (.error ()) doneDB "s1"
        (some 50)).db "s1").map (·.status) = some .PROCESSING
    ∧ (stopRecording parseNone (.error ()) doneDB "s1" (some 50)).ack
        = .failed "Failed to stop recording" := by
  refine ⟨by decide, by decide, by decide⟩

/-- C2 amended: the stop handler has no status guard.  On a session that
already has a Summary row (in particular one already completed), a second
stop-request always flips the status to PROCESSING first; no second Summary
row is ever created because the unique index rejects the duplicate insert;
when the summarization section attempts an insert the request fails and the
session is left stuck in PROCESSING, and in the remaining case (oracle
success with no JSON match) the session is re-completed with a success
acknowledgment. -/
theorem stop_no_guard_amended (parse : String → Option SummaryJson)
    (gemini : Except Unit String) (db : DB) (sid : String) (d : Option Nat)
    (hs : (findSession db sid).isSome = true)
    (hne : summariesFor db sid ≠ []) :
    summariesFor (stopRecording parse gemini db sid d).db sid = summariesFor db sid
    ∧ (createAttempted gemini = true →
        (findSession (stopRecording parse gemini db sid d).db sid).map (·.status)
            = some RecordingStatus.PROCESSING
        ∧ (stopRecording parse gemini db sid d).ack
            = .failed "Failed to stop recording")
    ∧ (createAttempted gemini = false →
        (findSession (stopRecording parse gemini db sid d).db sid).map (·.status)
            = some RecordingStatus.COMPLETED
        ∧ (stopRecording parse gemini db sid d).ack = .ok) := by
  obtain ⟨s, hfind⟩ := Option.isSome_iff_exists.mp hs
  cases hu : sessionUpdate db sid
      (fun t => { t with status := .PROCESSING, duration := jsOrZero d }) with
  | error e =>
      exfalso
      unfold sessionUpdate at hu
      rw [hfind] at hu
      exact absurd hu (by simp)
  | ok p =>
      obtain ⟨db₁, s₁⟩ := p
      obtain ⟨hf₁, htr₁, hsum₁, hnid₁, s₀, hfind₀, hs₁⟩ :=
        findSession_sessionUpdate hu (fun t => rfl)
      have hsf₁ : summariesFor db₁ sid = summariesFor db sid :=
        (summariesFor_congr hsum₁ sid)
      have hne₁ : summariesFor db₁ sid ≠ [] := by rw [hsf₁]; exact hne
      cases hca : createAttempted gemini with
      | true =>
          have hstep := @summarizeStep_existing_attempted parse gemini db₁ sid
            (aggregateTranscript db₁ sid) hne₁ hca
          have hrun : stopRecording parse gemini db sid d
              = ⟨db₁, .failed "Failed to stop recording",
                 [Emit.statusUpdated sid .PROCESSING]⟩ := by
            simp only [stopRecording]
            rw [hu]
            dsimp only
            rw [hstep]
          rw [hrun]
          refine ⟨hsf₁, fun _ => ⟨?_, rfl⟩, fun hfalse => by simp [hca] at hfalse⟩
          rw [hf₁, hs₁]
          rfl
      | false =>
          have hstep := @summarizeStep_no_attempt parse gemini db₁ sid
            (aggregateTranscript db₁ sid) hca
          cases hu₂ : sessionUpdate db₁ sid (fun t => { t with status := .COMPLETED }) with
          | error e =>
              exfalso
              unfold sessionUpdate at hu₂
              rw [hf₁] at hu₂
              exact absurd hu₂ (by simp)
          | ok q =>
              obtain ⟨db₂, s₂⟩ := q
              obtain ⟨hf₂, htr₂, hsum₂, hnid₂, t₀, hfind₂, hs₂⟩ :=
                findSession_sessionUpdate hu₂ (fun t => rfl)
              have hrun : stopRecording parse gemini db sid d
                  = ⟨db₂, .ok,
                     [Emit.statusUpdated sid .PROCESSING,
                      Emit.processingComplete sid "Recording processed successfully"
                        none]⟩ := by
                simp only [stopRecording]
                rw [hu]
                dsimp only
                rw [hstep]
                dsimp only
                rw [hu₂]
              rw [hrun]
              refine ⟨?_, fun htrue => by simp [hca] at htrue, fun _ => ⟨?_, rfl⟩⟩
              · rw [summariesFor_congr hsum₂ sid, hsf₁]
              · rw [hf₂, hs₂]
                rfl

/-- C2 amended witness: the amended behavior at the concrete completed
store, with a failing oracle (an insert is attempted). -/
theorem stop_no_guard_amended_witness :
    summariesFor (stopRecording parseNone (.error ()) doneDB "s1" (some 50)).db "s1"
        = summariesFor doneDB "s1"
    ∧ ((findSession (stopRecording parseNone (.error ()) doneDB "s1" (some 50)).db
        "s1").map (·.status) = some RecordingStatus.PROCESSING
      ∧ (stopRecording parseNone (.error ()) doneDB "s1" (some 50)).ack
          = .failed "Failed to stop recording") :=
  ⟨(stop_no_guard_amended parseNone (.error ()) doneDB "s1" (some 50)
      (by decide) (by decide)).1,
   (stop_no_guard_amended parseNone (.error ()) doneDB "s1" (some 50)
      (by decide) (by decide)).2.1 (by decide)⟩

/-- C3 counterexample: COMPLETED is not terminal in the code.  On the
completed sample session, an update-status request back to RECORDING is
applied and acknowledged (an edge the state machine does not contain), and
an audio-chunk request still persists a new TranscriptFragment. -/
theorem completed_not_terminal_cex :
    (findSession doneDB "s1").map (·.status) = some .COMPLETED
    ∧ (findSession (updateStatus doneDB "s1" .RECORDING).db "s1").map (·.status)
        = some .RECORDING
    ∧ (updateStatus doneDB "s1" .RECORDING).ack
        = .ok { sampleSession with status := .RECORDING, duration := 45 }
    ∧ (audioChunk (.ok "more words") doneDB "s1" "QUJD" 90).db.transcripts.length
        = doneDB.transcripts.length + 1 := by
  refine ⟨by decide, by decide, by decide, by decide⟩

/-- C3 amended: neither handler consults the current status.  For every
existing session, whatever its status, update-status writes exactly the
requested status (any value, along any pair of states) and broadcasts it,
and audio-chunk appends exactly one fragment; the state machine of the
design is not enforced anywhere. -/
theorem handlers_no_status_guard (db : DB) (sid : String) (st : RecordingStatus)
    (tr : Except Unit String) (chunk : String) (t : Int)
    (hs : (findSession db sid).isSome = true) :
    (findSession (updateStatus db sid st).db sid).map (·.status) = some st
    ∧ (updateStatus db sid st).emits = [.statusUpdated sid st]
    ∧ (audioChunk tr db sid chunk t).db.transcripts.length
        = db.transcripts.length + 1 := by
  obtain ⟨s, hfind⟩ := Option.isSome_iff_exists.mp hs
  cases hu : sessionUpdate db sid (fun t => { t with status := st }) with
  | error e =>
      exfalso
      unfold sessionUpdate at hu
      rw [hfind] at hu
      exact absurd hu (by simp)
  | ok p =>
      obtain ⟨db₁, s₁⟩ := p
      obtain ⟨hf₁, _, _, _, s₀, hfind₀, hs₁⟩ :=
        findSession_sessionUpdate hu (fun t => rfl)
      have hrun : updateStatus db sid st = ⟨db₁, .ok s₁, [.statusUpdated sid st]⟩ := by
        simp only [updateStatus]
        rw [hu]
      rw [hrun]
      refine ⟨?_, rfl, ?_⟩
      · rw [hf₁, hs₁]
        rfl
      · cases tr <;> simp [audioChunk, transcriptCreate, hs]

/-- C3 amended witness: the amended behavior at the concrete completed
store. -/
theorem handlers_no_status_guard_witness :
    (findSession (updateStatus doneDB "s1" .PAUSED).db "s1").map (·.status)
        = some RecordingStatus.PAUSED
    ∧ (updateStatus doneDB "s1" .PAUSED).emits = [.statusUpdated "s1" .PAUSED]
    ∧ (audioChunk (.error ()) doneDB "s1" "QUJD" 77).db.transcripts.length
        = doneDB.transcripts.length + 1 :=
  handlers_no_status_guard doneDB "s1" .PAUSED (.error ()) "QUJD" 77 (by decide)

/-- C5: the audio-chunk handler persists exactly one TranscriptFragment per
chunk on any existing session — never zero, never more than one: the
transcripts table grows by exactly the one new row, carrying the trimmed
transcription on success and the failure placeholder recording the timestamp
on failure, and the session rows (in particular the session status) and the
summaries table are untouched, so a chunk failure never aborts the
session. -/
theorem audioChunk_persists_exactly_one (tr : Except Unit String) (db : DB)
    (sid chunk : String) (t : Int)
    (hs : (findSession db sid).isSome = true) :
    (audioChunk tr db sid chunk t).db.transcripts
      = db.transcripts ++
        [{ id := db.nextTranscriptId, sessionId := sid,
           text := match tr with
             | .ok s => jsTrim s
             | .error _ => "[Transcription failed at " ++ toString t ++ "s]",
           timestamp := t,
           confidence := match tr with
             | .ok _ => mkRat 95 100
             | .error _ => 0 }]
    ∧ (audioChunk tr db sid chunk t).db.sessions = db.sessions
    ∧ (audioChunk tr db sid chunk t).db.summaries = db.summaries := by
  cases tr <;> simp [audioChunk, transcriptCreate, hs]

/-- C5 witness: the concrete behavior on the sample store, on the failure
branch. -/
theorem audioChunk_persists_exactly_one_witness :
    (audioChunk (.error ()) recDB "s1" "QUJD" 20).db.transcripts
      = recDB.transcripts ++
        [{ id := recDB.nextTranscriptId, sessionId := "s1",
           text := "[Transcription failed at 20s]", timestamp := 20,
           confidence := 0 }]
    ∧ (audioChunk (.error ()) recDB "s1" "QUJD" 20).db.sessions = recDB.sessions
    ∧ (audioChunk (.error ()) recDB "s1" "QUJD" 20).db.summaries = recDB.summaries :=
  audioChunk_persists_exactly_one (.error ()) recDB "s1" "QUJD" 20 (by decide)

/-- C10: the persisted confidence is a constant fixed by the branch taken:
the one appended fragment carries 95/100 exactly when transcription
succeeded and 0 exactly when it failed, and no other confidence value is
ever stored by the handler. -/
theorem fragment_confidence_constants (tr : Except Unit String) (db : DB)
    (sid chunk : String) (t : Int)
    (hs : (findSession db sid).isSome = true) :
    ∃ f : Transcript,
      (audioChunk tr db sid chunk t).db.transcripts = db.transcripts ++ [f]
      ∧ f.confidence = (match tr with
          | .ok _ => mkRat 95 100
          | .error _ => 0)
      ∧ (f.confidence = mkRat 95 100 ∨ f.confidence = 0) := by
  cases tr with
  | ok s =>
      refine ⟨{ id := db.nextTranscriptId, sessionId := sid, text := jsTrim s,
                timestamp := t, confidence := mkRat 95 100 }, ?_, rfl, Or.inl rfl⟩
      simp [audioChunk, transcriptCreate, hs]
  | error e =>
      refine ⟨{ id := db.nextTranscriptId, sessionId := sid,
                text := "[Transcription failed at " ++ toString t ++ "s]",
                timestamp := t, confidence := 0 }, ?_, rfl, Or.inr rfl⟩
      simp [audioChunk, transcriptCreate, hs]

/-- C10 witness: the concrete behavior on the sample store, on the success
branch. -/
theorem fragment_confidence_constants_witness :
    ∃ f : Transcript,
      (audioChunk (.ok "hi there") recDB "s1" "QUJD" 20).db.transcripts
        = recDB.transcripts ++ [f]
      ∧ f.confidence = mkRat 95 100
      ∧ (f.confidence = mkRat 95 100 ∨ f.confidence = 0) :=
  fragment_confidence_constants (.ok "hi there") recDB "s1" "QUJD" 20 (by decide)

/-- C8: the stop handler trusts and persists the client-reported duration:
after any stop-request carrying a numeric duration on an existing session,
the session row holds exactly that value, whichever branch the summarization
section takes. -/
theorem stop_persists_client_duration (parse : String → Option SummaryJson)
    (gemini : Except Unit String) (db : DB) (sid : String) (d : Nat)
    (hs : (findSession db sid).isSome = true) :
    (findSession (stopRecording parse gemini db sid (some d)).db sid).map (·.duration)
      = some d := by
  have hjz : jsOrZero (some d) = d := by
    show (if d = 0 then 0 else d) = d
    by_cases hd : d = 0
    · rw [if_pos hd, hd]
    · rw [if_neg hd]
  obtain ⟨s, hfind⟩ := Option.isSome_iff_exists.mp hs
  cases hu : sessionUpdate db sid
      (fun t => { t with status := .PROCESSING, duration := jsOrZero (some d) }) with
  | error e =>
      exfalso
      unfold sessionUpdate at hu
      rw [hfind] at hu
      exact absurd hu (by simp)
  | ok p =>
      obtain ⟨db₁, s₁⟩ := p
      obtain ⟨hf₁, _, _, _, s₀, hfind₀, hs₁⟩ :=
        findSession_sessionUpdate hu (fun t => rfl)
      cases hstep : summarizeStep parse gemini db₁ sid (aggregateTranscript db₁ sid) with
      | error e =>
          have hrun : stopRecording parse gemini db sid (some d)
              = ⟨db₁, .failed "Failed to stop recording",
                 [Emit.statusUpdated sid .PROCESSING]⟩ := by
            simp only [stopRecording]
            rw [hu]
            dsimp only
            rw [hstep]
          rw [hrun, hf₁, hs₁]
          simp [hjz]
      | ok q =>
          obtain ⟨db₂, sd⟩ := q
          have hsess₂ := (summarizeStep_sessions hstep).1
          have hf₂ : findSession db₂ sid = some s₁ := by
            rw [findSession_congr hsess₂ sid]
            exact hf₁
          cases hu₂ : sessionUpdate db₂ sid (fun t => { t with status := .COMPLETED }) with
          | error e =>
              have hrun : stopRecording parse gemini db sid (some d)
                  = ⟨db₂, .failed "Failed to stop recording",
                     [Emit.statusUpdated sid .PROCESSING]⟩ := by
                simp only [stopRecording]
                rw [hu]
                dsimp only
                rw [hstep]
                dsimp only
                rw [hu₂]
              rw [hrun, hf₂, hs₁]
              simp [hjz]
          | ok r =>
              obtain ⟨db₃, s₃⟩ := r
              obtain ⟨hf₃, _, _, _, t₀, hfind₃, hs₃⟩ :=
                findSession_sessionUpdate hu₂ (fun t => rfl)
              have hrun : stopRecording parse gemini db sid (some d)
                  = ⟨db₃, .ok,
                     [Emit.statusUpdated sid .PROCESSING,
                      Emit.processingComplete sid "Recording processed successfully" sd]⟩ := by
                simp only [stopRecording]
                rw [hu]
                dsimp only
                rw [hstep]
                dsimp only
                rw [hu₂]
              rw [hf₂] at hfind₃
              injection hfind₃ with ht
              subst ht
              rw [hrun, hf₃, hs₃, hs₁]
              simp [hjz]

/-- C8 witness: the concrete duration 45 persisted on the sample RECORDING
store. -/
theorem stop_persists_client_duration_witness :
    (findSession (stopRecording parseNone (.error ()) recDB "s1" (some 45)).db
        "s1").map (·.duration) = some 45 :=
  stop_persists_client_duration parseNone (.error ()) recDB "s1" 45 (by decide)

/-- C6 counterexample: on a stop run over the sample RECORDING session with
a failing summarization oracle, a fallback Summary row is persisted for the
session, yet the processing-complete broadcast carries a null summary field,
not the Summary that was just persisted. -/
theorem processing_complete_missing_fallback_cex :
    summariesFor (stopRecording parseNone (.error ()) recDB "s1" (some 45)).db "s1"
        = [fallbackRow "s1" "hello team"]
    ∧ (stopRecording parseNone (.error ()) recDB "s1" (some 45)).emits
        = [Emit.statusUpdated "s1" .PROCESSING,
           Emit.processingComplete "s1" "Recording processed successfully" none] := by
  refine ⟨by decide, by decide⟩

/-- C6 amended: the processing-complete broadcast carries the session id and
a summary field equal to the parsed AI object when the oracle response
parsed, and null in every other case — on the fallback path the persisted
fallback Summary is not attached.  Stated for a stop run on an existing
session with no prior summary row, which always completes with a success
acknowledgment. -/
theorem processing_complete_payload (parse : String → Option SummaryJson)
    (gemini : Except Unit String) (db : DB) (sid : String) (d : Option Nat)
    (hs : (findSession db sid).isSome = true)
    (he : summariesFor db sid = []) :
    (stopRecording parse gemini db sid d).emits
      = [Emit.statusUpdated sid .PROCESSING,
         Emit.processingComplete sid "Recording processed successfully"
           (parsedSummary parse gemini)]
    ∧ (stopRecording parse gemini db sid d).ack = .ok := by
  obtain ⟨s, hfind⟩ := Option.isSome_iff_exists.mp hs
  cases hu : sessionUpdate db sid
      (fun t => { t with status := .PROCESSING, duration := jsOrZero d }) with
  | error e =>
      exfalso
      unfold sessionUpdate at hu
      rw [hfind] at hu
      exact absurd hu (by simp)
  | ok p =>
      obtain ⟨db₁, s₁⟩ := p
      obtain ⟨hf₁, htr₁, hsum₁, hnid₁, s₀, hfind₀, hs₁⟩ :=
        findSession_sessionUpdate hu (fun t => rfl)
      have hs₁' : (findSession db₁ sid).isSome = true := by rw [hf₁]; rfl
      have he₁ : summariesFor db₁ sid = [] := by
        rw [summariesFor_congr hsum₁ sid]
        exact he
      have hstep := @summarizeStep_ok_of_empty parse gemini db₁ sid
        (aggregateTranscript db₁ sid) hs₁' he₁
      have hf₁' : findSession
          { db₁ with summaries := db₁.summaries ++
              summaryRowsAdded parse gemini sid (aggregateTranscript db₁ sid) } sid
          = some s₁ := hf₁
      cases hu₂ : sessionUpdate
          { db₁ with summaries := db₁.summaries ++
              summaryRowsAdded parse gemini sid (aggregateTranscript db₁ sid) } sid
          (fun t => { t with status := .COMPLETED }) with
      | error e =>
          exfalso
          unfold sessionUpdate at hu₂
          rw [hf₁'] at hu₂
          exact absurd hu₂ (by simp)
      | ok q =>
          obtain ⟨db₂, s₂⟩ := q
          have hrun : stopRecording parse gemini db sid d
              = ⟨db₂, .ok,
                 [Emit.statusUpdated sid .PROCESSING,
                  Emit.processingComplete sid "Recording processed successfully"
                    (parsedSummary parse gemini)]⟩ := by
            simp only [stopRecording]
            rw [hu]
            dsimp only
            rw [hstep]
            dsimp only
            rw [hu₂]
          rw [hrun]
          exact ⟨rfl, rfl⟩

/-- C6 amended witness: the amended payload at the concrete RECORDING store
with a failing oracle. -/
theorem processing_complete_payload_witness :
    (stopRecording parseNone (.error ()) recDB "s1" (some 45)).emits
      = [Emit.statusUpdated "s1" .PROCESSING,
         Emit.processingComplete "s1" "Recording processed successfully"
           (parsedSummary parseNone (.error ()))]
    ∧ (stopRecording parseNone (.error ()) recDB "s1" (some 45)).ack = .ok :=
  processing_complete_payload parseNone (.error ()) recDB "s1" (some 45)
    (by decide) (by decide)

/-- C7 counterexample: the get-session handler does not check ownership.
The sample session is owned by user u1, yet a request made by the distinct
caller u2 is answered with a full success acknowledgment, where the claim
requires a not-found failure for a session not owned by the caller. -/
theorem get_session_ignores_ownership_cex :
    sampleSession.userId = "u1"
    ∧ ("u2" : String) ≠ "u1"
    ∧ getSession recDB "u2" "s1" = .ok sampleSession [sampleFragment] none := by
  refine ⟨by decide, by decide, by decide⟩

/-- C7 amended: the not-found failure characterizes exactly the nonexistent
session ids — ownership plays no part: the result is the same for every
caller, a request for an id with no session row acknowledges with the
structured not-found failure (never a crash or an empty success), and a
request for an existing row acknowledges success with the session, its
fragments in timestamp order and its optional summary, whoever owns it. -/
theorem get_session_not_found_iff (db : DB) (callerId sid : String) :
    (∀ other : String, getSession db other sid = getSession db callerId sid)
    ∧ (getSession db callerId sid = .failed "Session not found"
        ↔ ∀ s ∈ db.sessions, s.id ≠ sid)
    ∧ (∀ s, findSession db sid = some s →
        getSession db callerId sid
          = .ok s (findManyTranscripts db sid) (summariesFor db sid).head?) := by
  refine ⟨fun _ => rfl, ?_, ?_⟩
  · cases hfind : findSession db sid with
    | none =>
        have hall := List.find?_eq_none.mp hfind
        constructor
        · intro _ s hmem
          have := hall s hmem
          simpa using this
        · intro _
          simp [getSession, hfind]
    | some s =>
        have hfind' : db.sessions.find? (fun t => t.id == sid) = some s := hfind
        have hmem := List.mem_of_find?_eq_some hfind'
        have hid := List.find?_some hfind'
        constructor
        · intro h
          exfalso
          simp [getSession, hfind] at h
        · intro hall
          exact absurd (by simpa using hid) (hall s hmem)
  · intro s hf
    simp [getSession, hf]

/-- C7 amended witness: the success case at the concrete store, for a caller
who is not the owner. -/
theorem get_session_not_found_iff_witness :
    getSession recDB "u2" "s1"
      = .ok sampleSession (findManyTranscripts recDB "s1")
          (summariesFor recDB "s1").head? :=
  (get_session_not_found_iff recDB "u2" "s1").2.2 sampleSession (by decide)

/-- C9: socket authentication succeeds exactly when a nonempty user id is
claimed and a User row with that id exists; on success the attached socket
data are the id, email and display name of the found row (and the attached
id is the claimed one); on failure the connection is rejected with a
nonempty descriptive reason, and the store is never touched by
authentication, which is a pure read. -/
theorem authenticate_socket_spec (users : List User) (claimed : Option String) :
    ((∃ uid em nm, authenticateSocket users claimed = .ok uid em nm)
        ↔ ∃ s, claimed = some s ∧ s ≠ "" ∧ ∃ u ∈ users, u.id = s)
    ∧ (∀ uid em nm, authenticateSocket users claimed = .ok uid em nm →
        ∃ u ∈ users, u.id = uid ∧ u.email = em ∧ u.name = nm ∧ claimed = some u.id)
    ∧ (∀ r, authenticateSocket users claimed = .rejected r → r ≠ "") := by
  cases claimed with
  | none =>
      refine ⟨by simp [authenticateSocket], ?_, ?_⟩
      · intro uid em nm h
        exact absurd h (by simp [authenticateSocket])
      · intro r h
        simp only [authenticateSocket] at h
        injection h with h'
        rw [← h']
        decide
  | some uid =>
      by_cases hemp : uid = ""
      · subst hemp
        refine ⟨?_, ?_, ?_⟩
        · simp [authenticateSocket]
        · intro uid em nm h
          exact absurd h (by simp [authenticateSocket])
        · intro r h
          simp only [authenticateSocket, if_pos rfl] at h
          injection h with h'
          rw [← h']
          decide
      · cases hfu : users.find? (fun u => u.id == uid) with
        | none =>
            have hall := List.find?_eq_none.mp hfu
            refine ⟨?_, ?_, ?_⟩
            · constructor
              · intro ⟨u₁, e₁, n₁, h⟩
                exact absurd h (by simp [authenticateSocket, hemp, hfu])
              · intro ⟨s, hss, hse, u, hmem, hus⟩
                injection hss with hss'
                subst hss'
                exact absurd (by simpa using hus) (by simpa using hall u hmem)
            · intro uid₁ em nm h
              exact absurd h (by simp [authenticateSocket, hemp, hfu])
            · intro r h
              simp only [authenticateSocket, if_neg hemp, hfu] at h
              injection h with h'
              rw [← h']
              decide
        | some u =>
            have hmem := List.mem_of_find?_eq_some hfu
            have hid : u.id = uid := by simpa using List.find?_some hfu
            have hok : authenticateSocket users (some uid) = .ok u.id u.email u.name := by
              simp [authenticateSocket, hemp, hfu]
            refine ⟨?_, ?_, ?_⟩
            · constructor
              · intro _
                exact ⟨uid, rfl, hemp, u, hmem, hid⟩
              · intro _
                exact ⟨u.id, u.email, u.name, hok⟩
            · intro uid₁ em nm h
              rw [hok] at h
              injection h with h₁ h₂ h₃
              exact ⟨u, hmem, h₁, h₂, h₃, by rw [hid]⟩
            · intro r h
              rw [hok] at h
              exact absurd h (by simp)

/-- C9 witness: success on the sample user list, with the attached data
equal to the row of the found user. -/
theorem authenticate_socket_spec_witness :
    ∃ u ∈ [aliceU], u.id = "u1" ∧ u.email = "alice@example.com"
      ∧ u.name = some "Alice" ∧ some "u1" = some u.id :=
  (authenticate_socket_spec [aliceU] (some "u1")).2.1 "u1" "alice@example.com"
    (some "Alice") (by decide)

/-- Ordered insertion depends on the relation only through its comparisons
against the inserted element. -/
theorem orderedInsert_congr_rel {r s : Transcript → Transcript → Prop}
    [DecidableRel r] [DecidableRel s] (a : Transcript) :
    ∀ l : List Transcript, (∀ b ∈ l, (r a b ↔ s a b)) →
      List.orderedInsert r a l = List.orderedInsert s a l := by
  intro l
  induction l with
  | nil => intro _; rfl
  | cons b l ih =>
      intro h
      by_cases hr : r a b
      · rw [List.orderedInsert, List.orderedInsert, if_pos hr,
          if_pos ((h b (List.mem_cons_self b l)).mp hr)]
      · rw [List.orderedInsert, List.orderedInsert, if_neg hr,
          if_neg (fun hs => hr ((h b (List.mem_cons_self b l)).mpr hs)),
          ih (fun c hc => h c (List.mem_cons_of_mem b hc))]

/-- On a list whose creation-order ids strictly increase, the stable sort by
timestamp coincides with the sort by timestamp refined by creation order:
ties keep creation order. -/
theorem insertionSort_ts_eq_lex :
    ∀ l : List Transcript, l.Pairwise (fun a b => a.id < b.id) →
      List.insertionSort tsLe l = List.insertionSort lexLe l := by
  intro l
  induction l with
  | nil => intro _; rfl
  | cons a l ih =>
      intro h
      rw [List.insertionSort, List.insertionSort, ih h.of_cons]
      apply orderedInsert_congr_rel
      intro b hb
      have hb' : b ∈ l := (List.perm_insertionSort lexLe l).mem_iff.mp hb
      have hab : a.id < b.id := (List.pairwise_cons.mp h).1 b hb'
      constructor
      · intro hle
        rcases lt_or_eq_of_le hle with hlt | heq
        · exact Or.inl hlt
        · exact Or.inr ⟨heq, le_of_lt hab⟩
      · intro hlex
        rcases hlex with hlt | ⟨heq, _⟩
        · exact le_of_lt hlt
        · exact le_of_eq heq

/-- Projecting to content triples commutes with ordered insertion by
timestamp. -/
theorem map_tkey_orderedInsert (a : Transcript) :
    ∀ l : List Transcript,
      (List.orderedInsert tsLe a l).map tkey
        = List.orderedInsert ctsLe (tkey a) (l.map tkey) := by
  intro l
  induction l with
  | nil => rfl
  | cons b l ih =>
      simp only [List.orderedInsert, apply_ite (List.map tkey), List.map_cons]
      by_cases h : tsLe a b
      · have h' : ctsLe (tkey a) (tkey b) := h
        rw [if_pos h, if_pos h']
      · have h' : ¬ ctsLe (tkey a) (tkey b) := h
        rw [if_neg h, if_neg h', ih]

/-- Projecting to content triples commutes with the timestamp sort. -/
theorem map_tkey_insertionSort :
    ∀ l : List Transcript,
      (List.insertionSort tsLe l).map tkey
        = List.insertionSort ctsLe (l.map tkey) := by
  intro l
  induction l with
  | nil => rfl
  | cons a l ih =>
      rw [List.insertionSort, List.map_cons, List.insertionSort,
        map_tkey_orderedInsert, ih]

/-- Two timestamp-sorted lists of content triples that are permutations of
each other and have pairwise distinct timestamps are equal. -/
theorem eq_of_perm_sorted_tsdistinct :
    ∀ m m' : List (String × String × Int), m.Perm m' →
      m.Sorted ctsLe → m'.Sorted ctsLe →
      m.Pairwise (fun a b => a.2.2 ≠ b.2.2) → m = m' := by
  intro m
  induction m with
  | nil =>
      intro m' hp _ _ _
      exact hp.nil_eq
  | cons a t ih =>
      intro m' hp hs hs' hd
      cases m' with
      | nil => exact absurd hp.symm (by simp)
      | cons b t' =>
          by_cases hab : a = b
          · subst hab
            rw [ih t' hp.cons_inv hs.of_cons hs'.of_cons hd.of_cons]
          · exfalso
            have hbm : b ∈ a :: t := hp.mem_iff.mpr (List.mem_cons_self b t')
            have hbt : b ∈ t := by
              rcases List.mem_cons.mp hbm with hba | hbt
              · exact absurd hba.symm hab
              · exact hbt
            have ham : a ∈ b :: t' := hp.mem_iff.mp (List.mem_cons_self a t)
            have hat' : a ∈ t' := by
              rcases List.mem_cons.mp ham with hba | hat'
              · exact absurd hba hab
              · exact hat'
            have h₁ : ctsLe a b := (List.sorted_cons.mp hs).1 b hbt
            have h₂ : ctsLe b a := (List.sorted_cons.mp hs').1 a hat'
            exact (List.pairwise_cons.mp hd).1 b hbt (le_antisymm h₁ h₂)

/-- C4: the aggregation the stop handler computes is the one the
specification states.  First part: on any transcript table whose creation
ids strictly increase along the table (the invariant the store maintains),
the aggregate equals the fragment texts sorted by timestamp offset
ascending with ties broken by creation order, joined with a single space.
Second part: the aggregate is arrival-order independent — two tables
holding permutations of the same fragment contents whose timestamps within
the session are pairwise distinct aggregate to the same string. -/
theorem aggregation_sorted_stable :
    (∀ (l : List Transcript) (sid : String),
        l.Pairwise (fun a b => a.id < b.id) →
        aggregateList l sid = aggregateSpec l sid)
    ∧ (∀ (l l' : List Transcript) (sid : String),
        (l.map tkey).Perm (l'.map tkey) →
        (l.filter (fun t => t.sessionId == sid)).Pairwise
          (fun a b => a.timestamp ≠ b.timestamp) →
        aggregateList l sid = aggregateList l' sid) := by
  constructor
  · intro l sid h
    unfold aggregateList aggregateSpec
    rw [insertionSort_ts_eq_lex _ (h.filter _)]
  · intro l l' sid hperm hdist
    unfold aggregateList
    have hmapl :
        ((List.insertionSort tsLe (l.filter (fun t => t.sessionId == sid))).map (·.text))
          = ((List.insertionSort ctsLe
              ((l.filter (fun t => t.sessionId == sid)).map tkey)).map (·.2.1)) := by
      rw [← map_tkey_insertionSort, List.map_map]
      rfl
    have hmapl' :
        ((List.insertionSort tsLe (l'.filter (fun t => t.sessionId == sid))).map (·.text))
          = ((List.insertionSort ctsLe
              ((l'.filter (fun t => t.sessionId == sid)).map tkey)).map (·.2.1)) := by
      rw [← map_tkey_insertionSort, List.map_map]
      rfl
    have hfperm :
        ((l.filter (fun t => t.sessionId == sid)).map tkey).Perm
          ((l'.filter (fun t => t.sessionId == sid)).map tkey) := by
      have hpf := hperm.filter (fun c => c.1 == sid)
      rw [List.filter_map, List.filter_map] at hpf
      exact hpf
    have hsorted₁ := List.sorted_insertionSort ctsLe
      ((l.filter (fun t => t.sessionId == sid)).map tkey)
    have hsorted₂ := List.sorted_insertionSort ctsLe
      ((l'.filter (fun t => t.sessionId == sid)).map tkey)
    have hdistm : ((l.filter (fun t => t.sessionId == sid)).map tkey).Pairwise
        (fun a b => a.2.2 ≠ b.2.2) :=
      List.pairwise_map.mpr hdist
    have hdists : (List.insertionSort ctsLe
        ((l.filter (fun t => t.sessionId == sid)).map tkey)).Pairwise
        (fun a b => a.2.2 ≠ b.2.2) :=
      ((List.perm_insertionSort ctsLe _).pairwise_iff
        (fun hxy => Ne.symm hxy)).mpr hdistm
    have hkey : List.insertionSort ctsLe
          ((l.filter (fun t => t.sessionId == sid)).map tkey)
        = List.insertionSort ctsLe
          ((l'.filter (fun t => t.sessionId == sid)).map tkey) :=
      eq_of_perm_sorted_tsdistinct _ _
        (((List.perm_insertionSort ctsLe _).trans hfperm).trans
          (List.perm_insertionSort ctsLe _).symm)
        hsorted₁ hsorted₂ hdists
    rw [hmapl, hmapl', hkey]

/-- C4 witness: the aggregation of the two-fragment session, in both arrival
orders. -/
theorem aggregation_sorted_stable_witness :
    aggregateList c4list "s1" = aggregateSpec c4list "s1"
    ∧ aggregateList c4list "s1" = aggregateList c4perm "s1" :=
  ⟨aggregation_sorted_stable.1 c4list "s1" (by decide),
   aggregation_sorted_stable.2 c4list c4perm "s1" (by decide) (by decide)⟩

end Scribe
